import Mathlib

/-!
Verification development for the request-coordination and mutation-dispatch
engine of `django_unicorn/views.py` (function-based `message` endpoint).

The Python source is shallowly embedded as executable Lean definitions:

* Python values reachable from a component (strings, ints, bools, `None`,
  structured objects such as `UnicornView`/`UnicornField` instances, and
  dicts) are modelled by the inductive type `Value`.  Object attribute
  namespaces and dicts are association lists preserving insertion order,
  mirroring CPython semantics.  Aliasing inside the object graph is not
  modelled (the graph is a tree), which matches how the engine traverses it.
* Python exceptions are modelled by `PyErr`; fallible code returns
  `Except PyErr _`.  `handle_error` catches only `UnicornViewError` and
  `AssertionError` (source lines 29-38); every other error propagates.
* External collaborators that live in this repository but outside the given
  source file (`UnicornView`, `UnicornField`, `ComponentRequest`, `Return`,
  the call-method parser, Django's cache and ORM) are modelled from the
  spec's collaborator contracts; each such definition carries a doc comment
  starting with `Modelled from the spec:`.
-/

namespace Unicorn

/-- Python values reachable from a component during property traversal.
`obj` models a structured object (component / `UnicornField` / model
instance) with named attributes; `dict` models a string-keyed dict.
`vnone` is Python `None` (JSON `null`). -/
inductive Value where
  | vnone : Value
  | vbool : Bool → Value
  | vint : Int → Value
  | vstr : String → Value
  | obj : List (String × Value) → Value
  | dict : List (String × Value) → Value

/-- Association-list lookup (first match), mirroring Python attribute/dict
lookup over an insertion-ordered namespace. -/
def assocLookup : List (String × Value) → String → Option Value
  | [], _ => none
  | (k2, v) :: rest, k => if k2 == k then some v else assocLookup rest k

/-- Association-list write: overwrite the first binding of `k` in place
(keeping its position), else append — CPython dict/`setattr` semantics. -/
def assocSet : List (String × Value) → String → Value → List (String × Value)
  | [], k, v => [(k, v)]
  | (k2, v2) :: rest, k, v =>
    if k2 == k then (k2, v) :: rest else (k2, v2) :: assocSet rest k v

/-- Attribute lookup: only structured objects expose named attributes to the
path engine (dict entries are not attributes; dict *methods* are not data and
are not modelled). -/
def attrLookup : Value → String → Option Value
  | .obj fs, k => assocLookup fs k
  | _, _ => none

/-- Python `hasattr(node, k)` as used by the traversal loops. -/
def hasattrV (node : Value) (k : String) : Bool :=
  (attrLookup node k).isSome

/-- Python `getattr(node, k)`; in the engine it is only evaluated under a
`hasattr` guard, so the `vnone` default is never observed. -/
def getattrV (node : Value) (k : String) : Value :=
  (attrLookup node k).getD .vnone

/-- Python `isinstance(node, dict)`. -/
def isDictV : Value → Bool
  | .dict _ => true
  | _ => false

/-- Overwrite/insert attribute `k` on a structured object (no-op on other
values; in the engine it is only applied to objects). -/
def assocSetAttr (node : Value) (k : String) (v : Value) : Value :=
  match node with
  | .obj fs => .obj (assocSet fs k v)
  | other => other

/-- Python `node[k] = v` on a dict value (no-op on other values; in the engine it
is only applied under an `isinstance(_, dict)` guard). -/
def dictWrite (node : Value) (k : String) (v : Value) : Value :=
  match node with
  | .dict l => .dict (assocSet l k v)
  | other => other

/-- Python `node[k]` read on a dict value. -/
def dictLookup : Value → String → Option Value
  | .dict l, k => assocLookup l k
  | _, _ => none

/-- Python `None` test (`is None`). -/
def isNoneV : Value → Bool
  | .vnone => true
  | _ => false

/-- Python truthiness (`bool(v)`): `None`/`False`/`0`/`""`/`{}` are falsy;
structured objects are truthy. -/
def pyTruthy : Value → Bool
  | .vnone => false
  | .vbool b => b
  | .vint n => n != 0
  | .vstr s => s != ""
  | .obj _ => true
  | .dict l => !l.isEmpty

/-- Python exceptions raised by the engine.  `handle_error` catches only the
first two kinds; the rest escape the request handler. -/
inductive PyErr where
  | unicornError (msg : String)
  | assertionError (msg : String)
  | keyError (k : String)
  | attributeError
  | typeError
  | indexError
  | recursionError

/-- Python `property_name.split(".")` — `str.split` on a literal dot
(always returns at least one piece; splitting `""` gives `[""]`). -/
def splitDotAux : List Char → List Char → List String
  | [], cur => [String.mk cur.reverse]
  | c :: rest, cur =>
    if c == '.' then String.mk cur.reverse :: splitDotAux rest [] else splitDotAux rest (c :: cur)

/-- Dot-path splitter used by both property-engine entry points. -/
def pySplitDot (s : String) : List String :=
  splitDotAux s.toList []

/-- The traversal loop of `_get_property_value` (source lines 157-167):
attribute lookup first, else dict-key lookup (a *missing* dict key raises
`KeyError`, lines 165/167), else the segment is silently skipped and the
loop continues with the same node; falling off the loop returns Python
`None`, modelled as `Option.none` (absent). -/
def getLoop (node : Value) : List String → Except PyErr (Option Value)
  | [] => .ok none
  | [p] =>
    if hasattrV node p then
      .ok (some (getattrV node p))
    else if isDictV node then
      match dictLookup node p with
      | some v => .ok (some v)
      | none => .error (.keyError p)
    else
      .ok none
  | p :: q :: rest =>
    if hasattrV node p then
      getLoop (getattrV node p) (q :: rest)
    else if isDictV node then
      match dictLookup node p with
      | some child => getLoop child (q :: rest)
      | none => .error (.keyError p)
    else
      getLoop node (q :: rest)

/-- Source `_get_property_value(component, property_name)` (lines 141-167).
`property_name = None` fails the `assert` at line 151. -/
def get_property_value (root : Value) (propertyName : Option String) :
    Except PyErr (Option Value) :=
  match propertyName with
  | none => .error (.assertionError "property_name name is required")
  | some n => getLoop root (pySplitDot n)

/-- One `data_or_dict = data_or_dict.get(part, {})` step on the shadow data
(source lines 128/135).  `live = false` means the current shadow reference is
a dict detached from the request data (a `.get` miss created a fresh `{}`),
so further writes are invisible; a `.get` on a non-dict raises
`AttributeError` exactly as in Python. -/
def shadowStep (sh : Value) (live : Bool) (k : String) : Except PyErr (Value × Bool) :=
  if live then
    match sh with
    | .dict l =>
      match assocLookup l k with
      | some sub => .ok (sub, true)
      | none => .ok (.dict [], false)
    | _ => .error .attributeError
  else
    .ok (.dict [], false)

/-- Terminal `data_or_dict[part] = value` on the shadow data (source lines
125/132); writing into a detached shadow is invisible; indexing into a
non-dict raises `TypeError`. -/
def shadowWrite (sh : Value) (live : Bool) (k : String) (v : Value) :
    Except PyErr Value :=
  if live then
    match sh with
    | .dict _ => .ok (dictWrite sh k v)
    | _ => .error .typeError
  else
    .ok sh

/-- The traversal loop of `_set_property_value` (source lines 105-135).
At a non-terminal segment: descend by attribute, else by dict key (missing
key raises `KeyError`, line 134), else silently skip the segment and
continue with the same node.  At the terminal segment: write the attribute
(via `_set_property` on the component or plain `setattr` — both are a plain
attribute write in this model; the `updating_*`/`updated_*` hooks of lines
113-123 are component callbacks not present on modelled components) or the
dict key, and mirror the write into the shadow data.  The functional update
is threaded back up the traversal, which is equivalent to Python's in-place
mutation on the tree-shaped object graph. -/
def setLoop (node : Value) (sh : Value) (live : Bool) (pv : Value) :
    List String → Except PyErr (Value × Value)
  | [] => .ok (node, sh)
  | [p] =>
    if hasattrV node p then
      match shadowWrite sh live p pv with
      | .error e => .error e
      | .ok sh2 => .ok (assocSetAttr node p pv, sh2)
    else if isDictV node then
      match shadowWrite sh live p pv with
      | .error e => .error e
      | .ok sh2 => .ok (dictWrite node p pv, sh2)
    else
      .ok (node, sh)
  | p :: q :: rest =>
    if hasattrV node p then
      match shadowStep sh live p with
      | .error e => .error e
      | .ok (subSh, subLive) =>
        match setLoop (getattrV node p) subSh subLive pv (q :: rest) with
        | .error e => .error e
        | .ok (child2, subSh2) =>
          .ok (assocSetAttr node p child2, if subLive then dictWrite sh p subSh2 else sh)
    else if isDictV node then
      match dictLookup node p with
      | none => .error (.keyError p)
      | some child =>
        match shadowStep sh live p with
        | .error e => .error e
        | .ok (subSh, subLive) =>
          match setLoop child subSh subLive pv (q :: rest) with
          | .error e => .error e
          | .ok (child2, subSh2) =>
            .ok (dictWrite node p child2, if subLive then dictWrite sh p subSh2 else sh)
    else
      setLoop node sh live pv (q :: rest)

/-- Source `_set_property_value(component, property_name, property_value, data)`
(source lines 69-137).  The two `assert`s at lines 83-84 reject a missing
name and a `None` value.  The generic `component.updating`/`component.updated`
hooks (lines 86/137) are collaborator callbacks with no effect on the state
modelled here.  Returns the updated component object graph and the updated
shadow data. -/
def set_property_value (root : Value) (propertyName : Option String)
    (propertyValue : Value) (data : Value) : Except PyErr (Value × Value) :=
  match propertyName with
  | none => .error (.assertionError "Property name is required")
  | some n =>
    if isNoneV propertyValue then
      .error (.assertionError "Property value is required")
    else
      setLoop root data true propertyValue (pySplitDot n)


mutual

/-- Source `_set_property_from_data(component_or_field, name, value)` (lines
42-65): if the target has the attribute and the current attribute value is a
structured object (`UnicornField`/`Model`), a dict value is fanned into its
fields recursively; a non-dict value recurses through the object's own
`name` attribute (line 59, `_set_property_from_data(field, field.name,
value)`, which raises if that attribute is missing or not a string);
otherwise the value is written directly (`_set_property` on a component and
plain `setattr` are both a plain attribute write in this model). -/
def set_property_from_data (node : Value) (name : String) (v : Value) :
    Except PyErr Value :=
  if h : hasattrV node name then
    let field := getattrV node name
    match field with
    | .obj _ =>
      match v with
      | .dict kvs =>
        match setPropsFromDict field kvs with
        | .error e => .error e
        | .ok field2 => .ok (assocSetAttr node name field2)
      | other =>
        match attrLookup field "name" with
        | none => .error .attributeError
        | some (.vstr s) =>
          match set_property_from_data field s other with
          | .error e => .error e
          | .ok field2 => .ok (assocSetAttr node name field2)
        | some _ => .error .typeError
    | _ => .ok (assocSetAttr node name v)
  else
    .ok node
termination_by (sizeOf v, sizeOf node)
decreasing_by
  all_goals
    first
    | (apply Prod.Lex.left
       simp <;> omega)
    | (apply Prod.Lex.right
       have hsz : forall (fs : List (String × Value)) (k : String) (v : Value),
           assocLookup fs k = some v → sizeOf v < 1 + sizeOf fs := by
         intro fs
         induction fs with
         | nil => intro k v hv; simp [assocLookup] at hv
         | cons hd tl ih =>
           intro k v hv
           obtain ⟨k2, v2⟩ := hd
           by_cases hk : (k2 == k) = true
           · simp [assocLookup, hk] at hv
             subst hv
             simp
             omega
           · simp [assocLookup, hk] at hv
             have := ih k v hv
             simp
             omega
       have h1 : sizeOf (getattrV node name) < sizeOf node := by
         cases hnode : node with
         | obj fs =>
           rw [hnode] at h
           simp [hasattrV, attrLookup, Option.isSome] at h
           split at h
           · next v heq =>
             have := hsz fs name v heq
             simp [getattrV, attrLookup, heq]
             omega
           · exact absurd h (by simp)
         | vnone => rw [hnode] at h; simp [hasattrV, attrLookup] at h
         | vbool b => rw [hnode] at h; simp [hasattrV, attrLookup] at h
         | vint n => rw [hnode] at h; simp [hasattrV, attrLookup] at h
         | vstr s => rw [hnode] at h; simp [hasattrV, attrLookup] at h
         | dict l => rw [hnode] at h; simp [hasattrV, attrLookup] at h
       simpa using h1)

/-- The `for key in value.keys()` fan-out of source lines 55-57. -/
def setPropsFromDict (node : Value) (kvs : List (String × Value)) :
    Except PyErr Value :=
  match kvs with
  | [] => .ok node
  | (k, kv) :: rest =>
    match set_property_from_data node k kv with
    | .error e => .error e
    | .ok node2 => setPropsFromDict node2 rest
termination_by (sizeOf kvs, sizeOf node)
decreasing_by
  all_goals
    apply Prod.Lex.left
    simp <;> omega

end

/-- Generic first-match association lookup for non-`Value` tables. -/
def assocFind {A : Type} : List (String × A) → String → Option A
  | [], _ => none
  | (k2, v) :: rest, k => if k2 == k then some v else assocFind rest k

/-- Modelled from the spec: one entry of the component-declared registry
`Meta.db_models` — "a component-declared registry mapping string names to
record types plus field defaults" (spec 4.2).  The record type is identified
by its class name; every registered class is a Django `Model`, so the
`issubclass` assertion of source lines 287-289 always passes. -/
structure DbEntry where
  name : String
  modelClass : String
  defaults : List (String × Value)

/-- Modelled from the spec: a component instance (spec 6 collaborator
contract).  `state` is the graph of public data properties the Property Path
Engine traverses; `errors` is the validation-error map, collected separately
by validation (spec 7: validation errors are produced by `validate` and
cleared by `$reset`); `modelFields` maps a field name to the class name of
its backing record type when the field object has a `model` attribute
(`None` when it lacks one); `meta` is the optional `Meta.db_models`
registry. -/
structure Component where
  state : Value
  errors : List (String × Value)
  modelFields : List (String × Option String)
  meta : Option (List DbEntry)

/-- Modelled from the spec: the `Return` value object built for a
`callMethod` action (`method` name, parsed `args`, captured return
`value`); `get_data` serialises exactly these three fields, and the
`redirect`/`poll` descriptors stay unset throughout this engine. -/
structure Return where
  method : String
  args : List Value
  value : Value

/-- Modelled from the spec: a parsed `callMethod` expression — "expression
parsed into method name + positional argument list, or a bare assignment
shorthand" (spec 3).  `assign` models a `name=literal` payload accepted by
the kwarg parse of source lines 309-315; `method` covers everything else,
including the `$`-prefixed special actions. -/
inductive CallExpr where
  | method (name : String) (args : List Value)
  | assign (prop : String) (v : Value)

/-- The `payload` dict of one action, with the keys the dispatcher reads:
`name`/`value` for `syncInput`, `model`/`db.name`/`db.pk`/`fields` for
`dbInput`, and the parsed call expression for `callMethod` (`call = none`
models a missing or empty `name` key, which fails the assert at source line
303). -/
structure Payload where
  name : Option String := none
  value : Value := .vnone
  model : Option String := none
  dbName : Option String := none
  dbPk : Option Nat := none
  fields : List (String × Value) := []
  call : Option CallExpr := none

/-- One queued action: `action.get("type")` plus its payload. -/
structure Action where
  tag : Option String
  payload : Payload

/-- Modelled from the spec: a `ComponentRequest` — `instanceId`, the inbound
`data` snapshot (a JSON object, hence a string-keyed dict), the ordered
`actionQueue` and the client-assigned `epoch` (spec 3). -/
structure Req where
  id : String
  epoch : Nat
  data : List (String × Value)
  actionQueue : List Action

/-- Modelled from the spec: the persisted-record store, offering only the
create/update contract the dispatcher uses (spec 1/6).  Rows carry the
record class name, the primary key and a field map; `nextPk` generates keys
for created rows. -/
structure DbRow where
  pk : Nat
  cls : String
  fields : List (String × Value)

/-- Modelled from the spec: state of the persisted-record store. -/
structure DbState where
  rows : List DbRow
  nextPk : Nat

/-- Source `DbModel.objects.filter(pk=pk).update(**fields_to_update)` (line
296): set the given fields on every row of that class with that key. -/
def dbUpdate (db : DbState) (cls : String) (p : Nat) (flds : List (String × Value)) :
    DbState :=
  { db with
    rows := db.rows.map fun r =>
      if r.cls == cls && r.pk == p then
        { r with fields := flds.foldl (fun acc kv => assocSet acc kv.1 kv.2) r.fields }
      else r }

/-- Source `instance = DbModel(**fields_to_update); instance.save()` (lines
298-300): insert one new row, generating its key. -/
def dbCreate (db : DbState) (cls : String) (flds : List (String × Value)) : DbState :=
  { rows := db.rows ++ [⟨db.nextPk, cls, flds⟩], nextPk := db.nextPk + 1 }

/-- Python `dict.update` on association lists: overwrite in place or
append, in the update's order. -/
def dictUpdate (base upd : List (String × Value)) : List (String × Value) :=
  upd.foldl (fun acc kv => assocSet acc kv.1 kv.2) base

/-- Ghost instrumentation threaded through processing (it never influences
behaviour): whether the PostProcessing validation step ran, the sequence of
actions handed to the Action Dispatcher, and the `Return` produced by each
`callMethod` action in order. -/
structure Ghost where
  validateCalled : Bool
  dispatched : List Action
  retLog : List Return

def emptyGhost : Ghost := ⟨false, [], []⟩

def ghostMerge (g1 g2 : Ghost) : Ghost :=
  ⟨g1.validateCalled || g2.validateCalled, g1.dispatched ++ g2.dispatched,
    g1.retLog ++ g2.retLog⟩

/-- Modelled from the spec: the component factory and the collaborator hooks
of spec 6.  `createDefault` is `UnicornView.create` as called at source line
222, `createCached`/`createFresh` are the `use_cache=True/False` variants
used by `$refresh`/`$reset`; created instances carry empty validation errors
only insofar as the factory returns them that way (theorems that need this
state it as a hypothesis).  `methods` gives the body of a named public
method — it receives the parsed arguments and the component's data state and
returns the updated state and the return value, or `none` when the
component exposes no such method (spec 4.2: the call is then silently a
no-op); per spec 7, methods update data state while validation errors are
produced only by `validate`, modelled by `validateRes`.  `serialize` is
`get_frontend_context_variables` composed with the JSON decode of source
line 363, and `render` is the external renderer. -/
structure Env where
  createDefault : Component
  createCached : Component
  createFresh : Component
  hydrateHook : Component → Component
  methods : String → List Value → Value → Option (Value × Value)
  serialize : Component → List (String × Value)
  validateRes : Component → Option (List String) → List (String × Value)
  render : Component → String

/-- Mutable state of one `_process_component_request` pass: the component,
the request's `data` dict (mutated in place as the shadow of syncInput
writes), the `is_reset_called` / `validate_all_fields` flags, the pending
`return_data`, the record store, and the ghost log. -/
structure ProcState where
  comp : Component
  data : Value
  isReset : Bool
  validateAll : Bool
  ret : Option Return
  db : DbState
  ghost : Ghost

/-- Python truthiness of the `pk` payload entry (`if pk:` at source line
295): absent or zero keys take the create path. -/
def pkTruthy : Option Nat → Bool
  | none => false
  | some p => p != 0

/-- Render an optional string the way a Python f-string renders the
variable (`None` for a missing value). -/
def pyOptStr : Option String → String
  | none => "None"
  | some s => s

/-- The `UnicornViewError` message for an unknown action type (source line
360). -/
def unknownActionMsg (tag : Option String) : String :=
  "Unknown action_type \x27" ++ pyOptStr tag ++ "\x27"

/-- The assertion message of source lines 284-286. -/
def missingDbMsg (model dbName : Option String) : String :=
  "Missing " ++ pyOptStr model ++ ".model and " ++ pyOptStr dbName ++ " in Meta.db_models"

/-- First registry entry satisfying `p` — the `for m in ...: if ...: break`
loops of source lines 266-269 and 276-280. -/
def findFirst (p : DbEntry → Bool) : List DbEntry → Option DbEntry
  | [] => none
  | m :: ms => if p m then some m else findFirst p ms

/-- Replace the first registry entry satisfying `p` — the in-place mutation
of that entry's `defaults` dict performed through the alias taken at source
line 292 (`fields_to_update = db_defaults`) when line 293 updates it. -/
def updateFirst (p : DbEntry → Bool) (f : DbEntry → DbEntry) :
    List DbEntry → List DbEntry
  | [] => []
  | m :: ms => if p m then f m :: ms else m :: updateFirst p f ms

/-- Which registry entry the `db_defaults` alias points at after
resolution: none (the fresh `{}` of source line 257), the first entry with
a matching record class (model-field path), or the first entry with a
matching registry name (name path). -/
inductive DefSrc where
  | noneSrc
  | byClass (cls : String)
  | byName (nm : String)

/-- The registry predicate corresponding to a defaults source. -/
def entryPred : DefSrc → DbEntry → Bool
  | .noneSrc, _ => false
  | .byClass c, m => m.modelClass == c
  | .byName n, m => m.name == n

/-- The defaults dict the alias points at. -/
def defaultsOf (meta : Option (List DbEntry)) (src : DefSrc) : List (String × Value) :=
  match meta with
  | none => []
  | some ms => ((findFirst (entryPred src) ms).map DbEntry.defaults).getD []

/-- Record-type resolution for a `dbInput` action (source lines 256-280):
prefer the named component field when it carries a `model` attribute
(`getattr` on a missing field raises `AttributeError`), scanning the
registry for matching defaults; otherwise resolve `db.name` through
`Meta.db_models` (asserting the registry exists).  Returns the resolved
class (if any) and the defaults source. -/
def resolveDb (comp : Component) (p : Payload) : Except PyErr (Option String × DefSrc) :=
  let step1 : Except PyErr (Option String × DefSrc) :=
    match p.model with
    | none => .ok (none, .noneSrc)
    | some fname =>
      match assocFind comp.modelFields fname with
      | some (some cls) =>
        match comp.meta with
        | some ms =>
          match findFirst (fun m => m.modelClass == cls) ms with
          | some _ => .ok (some cls, .byClass cls)
          | none => .ok (some cls, .noneSrc)
        | none => .ok (some cls, .noneSrc)
      | some none => .ok (none, .noneSrc)
      | none =>
        if hasattrV comp.state fname then .ok (none, .noneSrc)
        else .error .attributeError
  match step1 with
  | .error e => .error e
  | .ok (some cls, src) => .ok (some cls, src)
  | .ok (none, _) =>
    match p.dbName with
    | none => .ok (none, .noneSrc)
    | some n =>
      match comp.meta with
      | none => .error (.assertionError "Missing Meta.db_models list in component")
      | some ms =>
        match findFirst (fun m => m.name == n) ms with
        | some m => .ok (some m.modelClass, .byName n)
        | none => .ok (none, .noneSrc)

/-- Generic association write (overwrite first binding in place, else
append) for non-`Value` tables. -/
def assocPut {A : Type} : List (String × A) → String → A → List (String × A)
  | [], k, v => [(k, v)]
  | (k2, v2) :: rest, k, v =>
    if k2 == k then (k2, v) :: rest else (k2, v2) :: assocPut rest k v

mutual

/-- Python structural `==` on modelled values, used by the PostProcessing
changed-key computation (source line 372).  CPython's dict equality is
insertion-order-insensitive and `True == 1`; this model compares
order-sensitively and across exact kinds only, which can only change which
field names are passed to `validate`. -/
def valueBeq : Value → Value → Bool
  | .vnone, .vnone => true
  | .vbool a, .vbool b => a == b
  | .vint a, .vint b => a == b
  | .vstr a, .vstr b => a == b
  | .obj fs, .obj gs => valuePairsBeq fs gs
  | .dict fs, .dict gs => valuePairsBeq fs gs
  | _, _ => false

/-- Pointwise equality of association lists of values. -/
def valuePairsBeq : List (String × Value) → List (String × Value) → Bool
  | [], [] => true
  | (k1, v1) :: xs, (k2, v2) :: ys => k1 == k2 && valueBeq v1 v2 && valuePairsBeq xs ys
  | _, _ => false

end

/-- Source `$toggle` handling (lines 344-349): for each parsed argument, read the
property, negate its truthiness, and write the negation back.  A non-string
argument raises when `.split` is attempted on it. -/
def toggleFold (state : Value) : List Value → Except PyErr Value
  | [] => .ok state
  | p :: rest =>
    match p with
    | .vstr s =>
      match get_property_value state (some s) with
      | .error e => .error e
      | .ok got =>
        let newV := Value.vbool (!pyTruthy (got.getD .vnone))
        match set_property_value state (some s) newV (.dict []) with
        | .error e => .error e
        | .ok (state2, _) => toggleFold state2 rest
    | _ => .error .attributeError

/-- One iteration of the action loop of `_process_component_request`
(source lines 240-360), dispatching on `action.get("type")` through the
`if`/`elif` chain; an unrecognised tag raises `UnicornViewError` (line
360).  The ghost `dispatched` log records the action; errors discard the
in-flight state exactly as an exception aborts the request. -/
def stepAction (env : Env) (st0 : ProcState) (a : Action) : Except PyErr ProcState :=
  let st := { st0 with ghost := { st0.ghost with dispatched := st0.ghost.dispatched ++ [a] } }
  if a.tag == some "syncInput" then
    match set_property_value st.comp.state a.payload.name a.payload.value st.data with
    | .error e => .error e
    | .ok sres =>
      .ok { st with comp := { st.comp with state := sres.1 }, data := sres.2 }
  else if a.tag == some "dbInput" then
    match resolveDb st.comp a.payload with
    | .error e => .error e
    | .ok rres =>
      let src := rres.2
      match rres.1 with
      | none => .error (.assertionError (missingDbMsg a.payload.model a.payload.dbName))
      | some cls =>
        match a.payload.fields with
        | [] => .ok st
        | f0 :: fs =>
          let merged := dictUpdate (defaultsOf st.comp.meta src) (f0 :: fs)
          let meta2 :=
            st.comp.meta.map
              (updateFirst (entryPred src) (fun m => { m with defaults := merged }))
          let db2 :=
            if pkTruthy a.payload.dbPk then
              dbUpdate st.db cls (a.payload.dbPk.getD 0) merged
            else
              dbCreate st.db cls merged
          .ok { st with comp := { st.comp with meta := meta2 }, db := db2 }
  else if a.tag == some "callMethod" then
    match a.payload.call with
    | none => .error (.assertionError "Missing \x27name\x27 key for callMethod")
    | some (.assign prop v) =>
      match set_property_value st.comp.state (some prop) v (.dict []) with
      | .error e => .error e
      | .ok sres =>
        let r : Return := ⟨prop, [v], .vnone⟩
        .ok { st with
                comp := { st.comp with state := sres.1 }
                ret := some r
                ghost := { st.ghost with retLog := st.ghost.retLog ++ [r] } }
    | some (.method mname args) =>
      if mname == "$refresh" then
        let r : Return := ⟨mname, args, .vnone⟩
        .ok { st with
                comp := env.createCached
                ret := some r
                ghost := { st.ghost with retLog := st.ghost.retLog ++ [r] } }
      else if mname == "$reset" then
        let r : Return := ⟨mname, args, .vnone⟩
        .ok { st with
                comp := { env.createFresh with errors := [] }
                isReset := true
                ret := some r
                ghost := { st.ghost with retLog := st.ghost.retLog ++ [r] } }
      else if mname == "$toggle" then
        match toggleFold st.comp.state args with
        | .error e => .error e
        | .ok state2 =>
          let r : Return := ⟨mname, args, .vnone⟩
          .ok { st with
                  comp := { st.comp with state := state2 }
                  ret := some r
                  ghost := { st.ghost with retLog := st.ghost.retLog ++ [r] } }
      else if mname == "$validate" then
        let r : Return := ⟨mname, args, .vnone⟩
        .ok { st with
                validateAll := true
                ret := some r
                ghost := { st.ghost with retLog := st.ghost.retLog ++ [r] } }
      else
        match env.methods mname args st.comp.state with
        | some mres =>
          let r : Return := ⟨mname, args, mres.2⟩
          .ok { st with
                  comp := { st.comp with state := mres.1 }
                  ret := some r
                  ghost := { st.ghost with retLog := st.ghost.retLog ++ [r] } }
        | none =>
          let r : Return := ⟨mname, args, .vnone⟩
          .ok { st with
                  ret := some r
                  ghost := { st.ghost with retLog := st.ghost.retLog ++ [r] } }
  else
    .error (.unicornError (unknownActionMsg a.tag))

/-- The `for action in component_request.action_queue` loop. -/
def processActions (env : Env) : ProcState → List Action → Except PyErr ProcState
  | st, [] => .ok st
  | st, a :: rest =>
    match stepAction env st a with
    | .error e => .error e
    | .ok st2 => processActions env st2 rest

/-- The `for (property_name, property_value) in component_request.data`
hydration loop (source lines 233-234). -/
def hydrateData : Value → List (String × Value) → Except PyErr Value
  | state0, [] => .ok state0
  | state0, (k, v) :: rest =>
    match set_property_from_data state0 k v with
    | .error e => .error e
    | .ok st2 => hydrateData st2 rest

/-- The Hydrating stage of `_process_component_request` (source lines
222-238): create the component, apply the inbound data snapshot, run the
`hydrate` hook, and initialise the loop state. -/
def processInit (env : Env) (db : DbState) (req : Req) : Except PyErr ProcState :=
  match hydrateData env.createDefault.state req.data with
  | .error e => .error e
  | .ok state1 =>
    .ok { comp := env.hydrateHook { env.createDefault with state := state1 }
          data := .dict req.data
          isReset := false
          validateAll := false
          ret := none
          db := db
          ghost := emptyGhost }

/-- The `return` entry of a result envelope: a serialised `Return`, the
empty-dict default taken by `json_result.get("return", {})` (source line
558), or the two-element merge list built at source line 560 (nested for
cascaded merges). -/
inductive RV where
  | retData (r : Return)
  | emptyDict
  | pair (a b : RV)

/-- The result envelope assembled at source lines 379-399.  The modelled
component has no parent, so the `parent` sub-envelope (lines 401-431) and
the `redirect`/`poll` entries (never set by this engine's `Return`s) are
absent. -/
structure Envelope where
  id : String
  dom : String
  data : Value
  errors : List (String × Value)
  ret : Option RV

/-- The changed top-level keys computed at source lines 369-373: keys of the
original inbound data whose value differs from the re-serialised snapshot
(`.get` yielding `None` for a missing key).  The shallow `original_data`
copy of line 230 shares nested dicts with the mutated request data; that
aliasing is not modelled and can only change this validated-names set. -/
def changedKeys (orig newData : List (String × Value)) : List String :=
  (orig.filter fun kv => !valueBeq kv.2 ((assocLookup newData kv.1).getD .vnone)).map
    Prod.fst

/-- The PostProcessing + Rendering + Done stages (source lines 362-399):
re-serialise the data snapshot, validate unless `$reset` ran (everything if
`$validate` ran, else only changed keys), render, and assemble the
envelope. -/
def process_finalize (env : Env) (req : Req) (st : ProcState) :
    Envelope × DbState × Ghost :=
  let newList := env.serialize st.comp
  let newData := Value.dict newList
  if st.isReset then
    ({ id := req.id
       dom := env.render st.comp
       data := newData
       errors := st.comp.errors
       ret := st.ret.map RV.retData }, st.db, st.ghost)
  else
    let names := if st.validateAll then none else some (changedKeys req.data newList)
    let comp2 := { st.comp with errors := env.validateRes st.comp names }
    ({ id := req.id
       dom := env.render comp2
       data := newData
       errors := comp2.errors
       ret := st.ret.map RV.retData }, st.db,
      { st.ghost with validateCalled := true })

/-- Source `_process_component_request` (lines 192-433). -/
def process_component_request (env : Env) (db : DbState) (req : Req) :
    Except PyErr (Envelope × DbState × Ghost) :=
  match processInit env db req with
  | .error e => .error e
  | .ok st0 =>
    match processActions env st0 req.actionQueue with
    | .error e => .error e
    | .ok st => .ok (process_finalize env req st)

/-- Modelled from the spec: the shared expiring key-value store holding the
per-key pending queues (spec 3/6).  TTL expiry is not modelled: entries
live for the whole (sub-minute) drain being verified. -/
abbrev Cache := List (String × List Req)

/-- Shared system state: the pending-queue store and the record store. -/
structure SysState where
  cache : Cache
  db : DbState

/-- The coordinator's response: a result envelope, the queued
acknowledgment of source lines 470-474, or the `{"error": msg}` body
produced by `handle_error`. -/
inductive Resp where
  | envR (e : Envelope)
  | ackR (epoch originalEpoch : Nat) (ret : Option RV)
  | errJson (msg : String)

/-- Python `json_result.get("return", ...)` (empty-dict default) on a response dict. -/
def respRet : Resp → Option RV
  | .envR e => e.ret
  | .ackR _ _ r => r
  | .errJson _ => none

/-- Source `new_json_result["return"] = ...` on a response dict (line
560). -/
def respSetRet (r : Resp) (rv : RV) : Resp :=
  match r with
  | .envR e => .envR { e with ret := some rv }
  | .ackR a b _ => .ackR a b (some rv)
  | .errJson m => .errJson m

/-- Stable insertion of a request into an epoch-sorted list (later-arriving
requests go after earlier ones of equal epoch, as Python's stable sort
does). -/
def insertByEpoch (r : Req) : List Req → List Req
  | [] => [r]
  | x :: xs => if x.epoch ≤ r.epoch then x :: insertByEpoch r xs else r :: x :: xs

/-- Source `sorted(component_requests, key=lambda cr: cr.epoch)` (line
508). -/
def sortByEpoch (l : List Req) : List Req :=
  l.foldl (fun acc r => insertByEpoch r acc) []

/-- The enqueue step of `_handle_component_request` (source lines 461-466):
append the request to the stored queue for `f"{component_name}:{id}"`
(`cache.get(...) or []` treats a missing or empty entry alike) and persist.
Returns the new system state, the cache key and the stored queue. -/
def submitCore (st : SysState) (name : String) (r : Req) :
    SysState × String × List Req :=
  let key := name ++ ":" ++ r.id
  let q := (assocFind st.cache key).getD []
  let q2 := q ++ [r]
  ({ st with cache := assocPut st.cache key q2 }, key, q2)

/-- Source `_handle_component_requests` (lines 479-564): read the queue,
process the epoch-sorted first entry, then `pop(0)` the *arrival-ordered*
stored list and persist; if requests remain, fold them into one merged
request (first remaining entry extended with every later entry's action
queue, the compared-data branch of lines 535-537 being a no-op), empty the
stored queue, re-submit the merged request (the enqueue + sole-occupant
check of `_handle_component_request`, inlined here to break the Python
mutual recursion; `fuel` bounds the recursion depth exactly as Python's
recursion limit does), and nest the two return values into a pair on the
returned response. -/
def handle_component_requests (fuel : Nat) (env : Env) (st : SysState)
    (name key : String) : Except PyErr (SysState × Resp × Ghost) :=
  match assocFind st.cache key with
  | none => .error .typeError
  | some q =>
    match sortByEpoch q with
    | [] => .error .indexError
    | first :: _ =>
      match process_component_request env st.db first with
      | .error e => .error e
      | .ok (env1, db2, g1) =>
        match assocFind st.cache key with
        | none => .error .attributeError
        | some q2 =>
          match q2 with
          | [] => .error .indexError
          | _ :: q2t =>
            let cache2 := assocPut st.cache key q2t
            match (assocFind cache2 key).getD [] with
            | [] => .ok ({ cache := cache2, db := db2 }, .envR env1, g1)
            | m0 :: restQ =>
              let merged : Req :=
                { m0 with actionQueue := m0.actionQueue ++ restQ.flatMap Req.actionQueue }
              let cache3 := assocPut cache2 key []
              let (st4, key2, q5) := submitCore { cache := cache3, db := db2 } name merged
              let inner : Except PyErr (SysState × Resp × Ghost) :=
                if 1 < q5.length then
                  .ok (st4, .ackR merged.epoch (q5.headD merged).epoch none, emptyGhost)
                else
                  match fuel with
                  | 0 => .error .recursionError
                  | fuel2 + 1 => handle_component_requests fuel2 env st4 name key2
              match inner with
              | .error e => .error e
              | .ok (st5, resp2, g2) =>
                let newRet := RV.pair (env1.ret.getD .emptyDict) ((respRet resp2).getD .emptyDict)
                .ok (st5, respSetRet resp2 newRet, ghostMerge g1 g2)

/-- Source `_handle_component_request` (lines 436-476): enqueue, then either
return the queued acknowledgment (carrying this request's epoch and the
first-in-queue epoch) when the queue holds more than one entry, or drain. -/
def handle_component_request (fuel : Nat) (env : Env) (st : SysState)
    (name : String) (r : Req) : Except PyErr (SysState × Resp × Ghost) :=
  let (st2, key, q2) := submitCore st name r
  if 1 < q2.length then
    .ok (st2, .ackR r.epoch (q2.headD r).epoch none, emptyGhost)
  else
    handle_component_requests fuel env st2 name key

/-- The `handle_error` decorator (source lines 29-38): `UnicornViewError`
and `AssertionError` become `{"error": str(e)}` responses; everything else
escapes. -/
def handleErrorWrap (r : Except PyErr Resp) : Except PyErr Resp :=
  match r with
  | .error (.unicornError m) => .ok (.errJson m)
  | .error (.assertionError m) => .ok (.errJson m)
  | other => other

/-- The `message` endpoint body (source lines 567-596) under `handle_error`:
assert the component name (Python's falsy test rejects both `None` and the
empty string), then submit the parsed `ComponentRequest`.  Transport-layer
decorators (`csrf_protect`, `require_POST`, `timed`) are out of scope. -/
def message_view (fuel : Nat) (env : Env) (st : SysState)
    (componentName : Option String) (req : Req) : Except PyErr Resp :=
  handleErrorWrap
    (match componentName with
     | none => .error (.assertionError "Missing component name in url")
     | some nm =>
       if nm == "" then
         .error (.assertionError "Missing component name in url")
       else
         match handle_component_request fuel env st nm req with
         | .error e => .error e
         | .ok (_, resp, _) => .ok resp)

/-- A concrete sample component used by closed evaluation theorems: two data
properties, no validation errors, no record registry. -/
def sampleComp : Component :=
  { state := .obj [("count", .vint 1), ("name", .vstr "x")]
    errors := []
    modelFields := []
    meta := none }

/-- A concrete sample environment: `m1`/`m2` are public methods returning
distinct strings and leaving state unchanged, serialisation exposes the
object fields, validation finds no errors. -/
def sampleEnv : Env :=
  { createDefault := sampleComp
    createCached := sampleComp
    createFresh := sampleComp
    hydrateHook := id
    methods := fun nm _ stv =>
      if nm == "m1" then some (stv, .vstr "r1")
      else if nm == "m2" then some (stv, .vstr "r2")
      else none
    serialize := fun c => match c.state with | .obj fs => fs | _ => []
    validateRes := fun _ _ => []
    render := fun _ => "<div></div>" }

/-- The empty record store. -/
def dbEmpty : DbState := { rows := [], nextPk := 1 }

/-- Concrete `callMethod` action invoking `m1`. -/
def actCallM1 : Action := { tag := some "callMethod", payload := { call := some (.method "m1" []) } }

/-- Concrete `callMethod` action invoking `m2`. -/
def actCallM2 : Action := { tag := some "callMethod", payload := { call := some (.method "m2" []) } }

/-- Concrete request with epoch 1 calling `m1`. -/
def reqE1 : Req := { id := "c1", epoch := 1, data := [], actionQueue := [actCallM1] }

/-- Concrete request with epoch 2 calling `m2`. -/
def reqE2 : Req := { id := "c1", epoch := 2, data := [], actionQueue := [actCallM2] }

/-- System state in which epoch 2 arrived first and epoch 1 second, both
stored for the same key while the first submission's drain is admitted. -/
def sysC1 : SysState := { cache := [("hello:c1", [reqE2, reqE1])], db := dbEmpty }

/-- Response of a coordinator run, when it succeeded. -/
def runResp (r : Except PyErr (SysState × Resp × Ghost)) : Option Resp :=
  match r with
  | .ok (_, resp, _) => some resp
  | .error _ => none

/-- Return entry of a successful coordinator run's response. -/
def runRet (r : Except PyErr (SysState × Resp × Ghost)) : Option RV :=
  (runResp r).bind respRet

/-- Actions handed to the Action Dispatcher during a coordinator run. -/
def runDispatched (r : Except PyErr (SysState × Resp × Ghost)) : List Action :=
  match r with
  | .ok (_, _, g) => g.dispatched
  | .error _ => []

/-- Unknown-tag action used by the C6 witness. -/
def actBogus : Action := { tag := some "bogus", payload := {} }

/-- Request carrying only the unknown-tag action. -/
def reqBogus : Req := { id := "cb", epoch := 1, data := [], actionQueue := [actBogus] }

/-- System state with an empty pending-queue store. -/
def sysEmpty : SysState := { cache := [], db := dbEmpty }

/-- The initial processing state `processInit` builds for `reqBogus` under
`sampleEnv`. -/
def stInitBogus : ProcState :=
  { comp := sampleComp, data := .dict [], isReset := false, validateAll := false,
    ret := none, db := dbEmpty, ghost := emptyGhost }

/-- Component with a `Meta.db_models` registry entry named `book` mapping to
record class `Book` with one declared default. -/
def compDb : Component :=
  { state := .obj [("flag", .vbool true)]
    errors := []
    modelFields := []
    meta := some [⟨"book", "Book", [("title", .vstr "d")]⟩] }

/-- Processing state holding `compDb`, used by the dbInput witnesses. -/
def stDb : ProcState :=
  { comp := compDb, data := .dict [], isReset := false, validateAll := false,
    ret := none, db := dbEmpty, ghost := emptyGhost }

/-- Concrete `dbInput` action with an empty fields payload resolving through the
registry. -/
def actDbEmptyFields : Action :=
  { tag := some "dbInput", payload := { dbName := some "book" } }

/-- Component whose `bookField` model field carries record class `Book`,
matching the registry entry by class (the model-field resolution route of
source lines 259-269). -/
def compDbField : Component :=
  { state := .obj [("flag", .vbool true)]
    errors := []
    modelFields := [("bookField", some "Book")]
    meta := some [⟨"book", "Book", [("title", .vstr "d")]⟩] }

/-- Processing state holding `compDbField`. -/
def stDbField : ProcState :=
  { comp := compDbField, data := .dict [], isReset := false, validateAll := false,
    ret := none, db := dbEmpty, ghost := emptyGhost }

/-- Concrete `dbInput` action supplying one field and resolving through the
component's `bookField` model field. -/
def actDbModelField : Action :=
  { tag := some "dbInput",
    payload := { model := some "bookField", fields := [("title", .vstr "t2")] } }

/-- Concrete `callMethod` action invoking the `$reset` special method. -/
def actReset : Action :=
  { tag := some "callMethod", payload := { call := some (.method "$reset" []) } }

/-- Request whose queue holds only `$reset`. -/
def reqReset : Req := { id := "cr", epoch := 1, data := [], actionQueue := [actReset] }

/-- The envelope produced for `reqReset` under `sampleEnv`. -/
def envReset : Envelope :=
  { id := "cr", dom := "<div></div>",
    data := .dict [("count", .vint 1), ("name", .vstr "x")],
    errors := [], ret := some (.retData ⟨"$reset", [], .vnone⟩) }

/-- The ghost log produced for `reqReset` under `sampleEnv`. -/
def ghostReset : Ghost :=
  { validateCalled := false, dispatched := [actReset],
    retLog := [⟨"$reset", [], .vnone⟩] }

/-- Validity of a dot path under the shared traversal of the get and set
loops: every consumed segment resolves (by attribute, else by a present
dict key), segments on non-container nodes that expose no such attribute
are skipped exactly as both loops skip them, and the terminal segment lands
on an attribute owner or a keyed container. -/
def pathResolves (node : Value) : List String → Bool
  | [] => false
  | [p] => hasattrV node p || isDictV node
  | p :: q :: rest =>
    if hasattrV node p then pathResolves (getattrV node p) (q :: rest)
    else if isDictV node then
      match dictLookup node p with
      | some child => pathResolves child (q :: rest)
      | none => false
    else pathResolves node (q :: rest)

/-- Concrete `syncInput` action setting `count` to 5. -/
def actSyncCount : Action :=
  { tag := some "syncInput", payload := { name := some "count", value := .vint 5 } }

/-- Request whose queue holds two `callMethod` actions around a
`syncInput`. -/
def reqTwoCalls : Req :=
  { id := "ca", epoch := 1, data := [], actionQueue := [actCallM1, actSyncCount, actCallM2] }

/-- The envelope produced for `reqTwoCalls` under `sampleEnv`. -/
def envTwoCalls : Envelope :=
  { id := "ca", dom := "<div></div>",
    data := .dict [("count", .vint 5), ("name", .vstr "x")],
    errors := [], ret := some (.retData ⟨"m2", [], .vstr "r2"⟩) }

/-- The ghost log produced for `reqTwoCalls` under `sampleEnv`. -/
def ghostTwoCalls : Ghost :=
  { validateCalled := true, dispatched := [actCallM1, actSyncCount, actCallM2],
    retLog := [⟨"m1", [], .vstr "r1"⟩, ⟨"m2", [], .vstr "r2"⟩] }

set_option maxRecDepth 4000

theorem getLoop_ok_or_keyError :
    ∀ (parts : List String) (node : Value),
      (∃ v, getLoop node parts = .ok v) ∨ ∃ k, getLoop node parts = .error (.keyError k) := by
  intro parts
  induction parts with
  | nil => exact fun node => Or.inl ⟨none, rfl⟩
  | cons p rest ih =>
    intro node
    cases rest with
    | nil =>
      by_cases h1 : hasattrV node p = true
      · exact Or.inl ⟨some (getattrV node p), by simp [getLoop, h1]⟩
      · by_cases h2 : isDictV node = true
        · cases h3 : dictLookup node p with
          | some v =>
            exact Or.inl ⟨some v, by simp [getLoop, h1, h2, h3]⟩
          | none =>
            exact Or.inr ⟨p, by simp [getLoop, h1, h2, h3]⟩
        · exact Or.inl ⟨none, by simp [getLoop, h1, h2]⟩
    | cons q rs =>
      by_cases h1 : hasattrV node p = true
      · rcases ih (getattrV node p) with ⟨v, hv⟩ | ⟨k, hk⟩
        · exact Or.inl ⟨v, by simp [getLoop, h1]; exact hv⟩
        · exact Or.inr ⟨k, by simp [getLoop, h1]; exact hk⟩
      · by_cases h2 : isDictV node = true
        · cases h3 : dictLookup node p with
          | some child =>
            rcases ih child with ⟨v, hv⟩ | ⟨k, hk⟩
            · exact Or.inl ⟨v, by simp [getLoop, h1, h2, h3]; exact hv⟩
            · exact Or.inr ⟨k, by simp [getLoop, h1, h2, h3]; exact hk⟩
          | none =>
            exact Or.inr ⟨p, by simp [getLoop, h1, h2, h3]⟩
        · rcases ih node with ⟨v, hv⟩ | ⟨k, hk⟩
          · exact Or.inl ⟨v, by simp [getLoop, h1, h2]; exact hv⟩
          · exact Or.inr ⟨k, by simp [getLoop, h1, h2]; exact hk⟩

/-- C2 (counterexample): a key missing from a keyed container encountered
during traversal does raise: on a component whose `d` field is an empty
dict, getting `d.x` raises `KeyError` instead of returning absent. -/
theorem c2_get_raises_on_missing_container_key :
    get_property_value (.obj [("d", .dict [])]) (some "d.x") = .error (.keyError "x") := by
  rfl

/-- C2 (amended): the path-engine get never raises on a segment that is
unresolvable at a non-container node — it returns absent — but when the
current node is a keyed container whose key is missing it raises a key
error; a key error is the only possible failure of a get with a non-`None`
path. -/
theorem c2_amended_get_absent_or_key_error :
    ∀ (root : Value) (path : String),
      (∃ v, get_property_value root (some path) = .ok v) ∨
      ∃ k, get_property_value root (some path) = .error (.keyError k) := by
  intro root path
  simpa [get_property_value] using getLoop_ok_or_keyError (pySplitDot path) root

theorem setLoop_skip_all :
    ∀ (parts : List String) (node sh : Value) (live : Bool) (pv : Value),
      isDictV node = false →
      (parts.all fun p => !hasattrV node p) = true →
      setLoop node sh live pv parts = .ok (node, sh) := by
  intro parts
  induction parts with
  | nil => intro node sh live pv _ _; rfl
  | cons p rest ih =>
    intro node sh live pv hd hall
    simp [List.all_cons] at hall
    obtain ⟨hp, hrest⟩ := hall
    cases rest with
    | nil => simp [setLoop, hp, hd]
    | cons q rs =>
      simp [setLoop, hp, hd]
      exact ih node sh live pv hd (by simpa [List.all_eq_true] using hrest)

/-- C4 (counterexample): a set through `bogus.name` on a component that has
no `bogus` attribute is not a no-op — the unresolvable segment is skipped,
the later segment `name` resolves against the same node, and both the
component state and the shadow data are mutated. -/
theorem c4_skipped_segment_still_writes :
    set_property_value (.obj [("name", .vstr "x")]) (some "bogus.name") (.vstr "y")
        (.dict []) =
      .ok (.obj [("name", .vstr "y")], .dict [("name", .vstr "y")]) ∧
    Value.obj [("name", .vstr "y")] ≠ Value.obj [("name", .vstr "x")] := by
  refine ⟨rfl, ?_⟩
  simp

/-- C4 (amended): a set through a dotted path raises no error and leaves
both the component state and the shadow data unchanged when the root is not
a keyed container and *no* segment of the path (not just the unresolvable
intermediate one) resolves as an attribute: unresolvable segments are
skipped and later segments are re-matched against the same node, so only a
path none of whose segments resolves is a guaranteed no-op. -/
theorem c4_amended_silent_noop_when_no_segment_resolves :
    ∀ (root : Value) (path : String) (v sh : Value),
      isNoneV v = false →
      isDictV root = false →
      ((pySplitDot path).all fun p => !hasattrV root p) = true →
      set_property_value root (some path) v sh = .ok (root, sh) := by
  intro root path v sh hv hd hall
  simp [set_property_value, hv]
  exact setLoop_skip_all (pySplitDot path) root sh true v hd hall

/-- Witness for the amended C4 theorem at a concrete input. -/
theorem c4_amended_witness :
    isNoneV (.vstr "q") = false ∧
    isDictV (.obj [("z", .vint 1)]) = false ∧
    ((pySplitDot "a.b").all fun p => !hasattrV (.obj [("z", .vint 1)]) p) = true ∧
    set_property_value (.obj [("z", .vint 1)]) (some "a.b") (.vstr "q") (.dict []) =
      .ok (.obj [("z", .vint 1)], .dict []) :=
  ⟨rfl, rfl, rfl,
    c4_amended_silent_noop_when_no_segment_resolves (.obj [("z", .vint 1)]) "a.b"
      (.vstr "q") (.dict []) rfl rfl rfl⟩

/-- C1: the claim says a drain over two same-key requests with epochs 2
then 1 (arrival order 2, 1) processes epoch 1's action queue before epoch
2's and returns `[result(epoch1), result(epoch2)]`.  Evaluating the drain at
exactly that input shows the code instead dispatches epoch 1's single
`callMethod m1` action twice and never dispatches epoch 2's `m2`: after
processing the epoch-sorted head (epoch 1), line 521 pops index 0 of the
*arrival-ordered* stored queue, discarding the unprocessed epoch-2 entry,
and the merge pass re-submits the already-processed epoch-1 entry, so the
envelope's return value is `[result(m1), result(m1)]`, not
`[result(m1), result(m2)]`. -/
theorem c1_drain_pops_arrival_order_not_epoch_order :
    runDispatched (handle_component_requests 1 sampleEnv sysC1 "hello" "hello:c1") =
      [actCallM1, actCallM1] ∧
    runRet (handle_component_requests 1 sampleEnv sysC1 "hello" "hello:c1") =
      some (.pair (.retData ⟨"m1", [], .vstr "r1"⟩) (.retData ⟨"m1", [], .vstr "r1"⟩)) ∧
    some (RV.pair (.retData ⟨"m1", [], .vstr "r1"⟩) (.retData ⟨"m1", [], .vstr "r1"⟩)) ≠
      some (RV.pair (.retData ⟨"m1", [], .vstr "r1"⟩) (.retData ⟨"m2", [], .vstr "r2"⟩)) := by
  refine ⟨rfl, rfl, ?_⟩
  simp

/-- C5: a request that is not the sole occupant of its stored queue right
after being appended is not dispatched; submit returns the queued
acknowledgment carrying the request's own epoch and the epoch of the first
request already stored in the queue, with an empty dispatch log. -/
theorem c5_queued_ack_when_not_sole_occupant :
    ∀ (fuel : Nat) (env : Env) (st : SysState) (name : String) (r r0 : Req)
      (rest : List Req),
      (assocFind st.cache (name ++ ":" ++ r.id)).getD [] = r0 :: rest →
      handle_component_request fuel env st name r =
        .ok ({ st with cache := assocPut st.cache (name ++ ":" ++ r.id) ((r0 :: rest) ++ [r]) },
             .ackR r.epoch r0.epoch none, emptyGhost) := by
  intro fuel env st name r r0 rest hq
  simp [handle_component_request, submitCore, hq]

/-- Witness for the queued-acknowledgment theorem at a concrete input. -/
theorem c5_witness :
    handle_component_request 1 sampleEnv { cache := [("hello:c1", [reqE2])], db := dbEmpty }
        "hello" reqE1 =
      .ok ({ (⟨[("hello:c1", [reqE2])], dbEmpty⟩ : SysState) with
              cache := assocPut [("hello:c1", [reqE2])] ("hello" ++ ":" ++ reqE1.id)
                ([reqE2] ++ [reqE1]) },
           .ackR reqE1.epoch reqE2.epoch none, emptyGhost) :=
  c5_queued_ack_when_not_sole_occupant 1 sampleEnv
    { cache := [("hello:c1", [reqE2])], db := dbEmpty } "hello" reqE1 reqE2 [] rfl

theorem processActions_append (env : Env) (pre post : List Action) :
    ∀ st, processActions env st (pre ++ post) =
      match processActions env st pre with
      | .ok st2 => processActions env st2 post
      | .error e => .error e := by
  induction pre with
  | nil => intro st; simp [processActions]
  | cons a rest ih =>
    intro st
    simp only [List.cons_append, processActions]
    cases stepAction env st a with
    | error e => rfl
    | ok st2 => exact ih st2

theorem assocFind_assocPut_self {A : Type} (c : List (String × A)) (k : String) (v : A) :
    assocFind (assocPut c k v) k = some v := by
  induction c with
  | nil => simp [assocPut, assocFind]
  | cons hd tl ih =>
    obtain ⟨k2, v2⟩ := hd
    by_cases hk : (k2 == k) = true
    · simp [assocPut, assocFind, hk]
    · simp [assocPut, assocFind, hk, ih]

/-- C6: an action whose `type` tag is none of `syncInput`, `dbInput`,
`callMethod` (or is absent) fails at that action with
`UnknownViewError("Unknown action_type '<type>'")`; the whole request errors
once the actions before it have been applied, and the `handle_error`
boundary turns the error into the `{"error": ...}` response, so no envelope
is produced. -/
theorem c6_unknown_action_type_rejected :
    ∀ (a : Action),
      (a.tag == some "syncInput" || a.tag == some "dbInput" ||
        a.tag == some "callMethod") = false →
      (∀ (env : Env) (st : ProcState),
        stepAction env st a = .error (.unicornError (unknownActionMsg a.tag))) ∧
      (∀ (env : Env) (db : DbState) (req : Req) (pre post : List Action)
        (st0 stMid : ProcState),
        req.actionQueue = pre ++ a :: post →
        processInit env db req = .ok st0 →
        processActions env st0 pre = .ok stMid →
        process_component_request env db req =
          .error (.unicornError (unknownActionMsg a.tag))) ∧
      (∀ (fuel : Nat) (env : Env) (sys : SysState) (nm : String) (req : Req)
        (pre post : List Action) (st0 stMid : ProcState),
        (nm == "") = false →
        assocFind sys.cache (nm ++ ":" ++ req.id) = none →
        req.actionQueue = pre ++ a :: post →
        processInit env sys.db req = .ok st0 →
        processActions env st0 pre = .ok stMid →
        message_view fuel env sys (some nm) req =
          .ok (.errJson (unknownActionMsg a.tag))) := by
  intro a htag
  simp only [Bool.or_eq_false_iff] at htag
  obtain ⟨⟨h1, h2⟩, h3⟩ := htag
  have ha : ∀ (env : Env) (st : ProcState),
      stepAction env st a = .error (.unicornError (unknownActionMsg a.tag)) := by
    intro env st
    simp [stepAction, h1, h2, h3]
  have hb : ∀ (env : Env) (db : DbState) (req : Req) (pre post : List Action)
      (st0 stMid : ProcState),
      req.actionQueue = pre ++ a :: post →
      processInit env db req = .ok st0 →
      processActions env st0 pre = .ok stMid →
      process_component_request env db req =
        .error (.unicornError (unknownActionMsg a.tag)) := by
    intro env db req pre post st0 stMid hq hinit hpre
    simp only [process_component_request, hinit, hq]
    rw [processActions_append env pre (a :: post) st0, hpre]
    simp [processActions, ha env stMid]
  refine ⟨ha, hb, ?_⟩
  intro fuel env sys nm req pre post st0 stMid hnm hc hq hinit hpre
  have hdrain : ∀ (st2 : SysState),
      assocFind st2.cache (nm ++ ":" ++ req.id) = some [req] →
      st2.db = sys.db →
      handle_component_requests fuel env st2 nm (nm ++ ":" ++ req.id) =
        .error (.unicornError (unknownActionMsg a.tag)) := by
    intro st2 hfind hdb
    rw [handle_component_requests.eq_def, hfind]
    have hsort : sortByEpoch [req] = [req] := by
      simp [sortByEpoch, insertByEpoch]
    simp only [hsort, hdb, hb env sys.db req pre post st0 stMid hq hinit hpre]
  have hsubmit :
      handle_component_request fuel env sys nm req =
        .error (.unicornError (unknownActionMsg a.tag)) := by
    simp only [handle_component_request, submitCore, hc, Option.getD_none, List.nil_append,
      List.length_cons, List.length_nil]
    simp only [show ¬(1 < 1) from by omega, if_false]
    exact hdrain _ (by simp [assocFind_assocPut_self]) rfl
  simp [message_view, hnm, hsubmit, handleErrorWrap]

theorem c6_witness :
    ((actBogus.tag == some "syncInput" || actBogus.tag == some "dbInput" ||
        actBogus.tag == some "callMethod") = false) ∧
    message_view 1 sampleEnv sysEmpty (some "hello") reqBogus =
      .ok (.errJson (unknownActionMsg actBogus.tag)) :=
  ⟨rfl, (c6_unknown_action_type_rejected actBogus rfl).2.2 1 sampleEnv sysEmpty "hello"
      reqBogus [] [] stInitBogus stInitBogus rfl rfl rfl rfl rfl⟩

theorem findFirst_updateFirst (p : DbEntry → Bool) (f : DbEntry → DbEntry)
    (hp : ∀ m, p (f m) = p m) :
    ∀ l, findFirst p (updateFirst p f l) = (findFirst p l).map f := by
  intro l
  induction l with
  | nil => rfl
  | cons m ms ih =>
    by_cases hm : p m = true
    · simp [updateFirst, findFirst, hm, hp]
    · simp [updateFirst, findFirst, hm, hp, ih]

/-- C8: a `dbInput` action with non-empty fields that resolves its record
type together with declared defaults — through *either* route, the named
component field whose record class matches a `Meta.db_models` entry (source
lines 259-269) or the registry name (lines 271-280) — merges the supplied
fields into the matched entry's `defaults` dict *in place* (through the
alias taken at `fields_to_update = db_defaults`), so a later `dbInput`
resolving the same entry sees the supplied values inside the declared
defaults.  `src` is the defaults source produced by the resolution;
`findFirst (entryPred src) ms = some entry` says the alias points at a
registry entry, which covers both the class-matched and the name-matched
route (and is false exactly when resolution left the fresh `{}` of line
257, where nothing is aliased). -/
theorem c8_db_defaults_mutated_in_registry :
    ∀ (env : Env) (st : ProcState) (a : Action) (cls : String) (src : DefSrc)
      (ms : List DbEntry) (entry : DbEntry) (f0 : String × Value)
      (fs : List (String × Value)),
      a.tag = some "dbInput" →
      resolveDb st.comp a.payload = .ok (some cls, src) →
      st.comp.meta = some ms →
      findFirst (entryPred src) ms = some entry →
      a.payload.fields = f0 :: fs →
      ∃ st2, stepAction env st a = .ok st2 ∧
        st2.comp.meta = some (updateFirst (entryPred src)
          (fun m => { m with defaults := dictUpdate entry.defaults (f0 :: fs) }) ms) ∧
        findFirst (entryPred src) (st2.comp.meta.getD []) =
          some { entry with defaults := dictUpdate entry.defaults (f0 :: fs) } := by
  intro env st a cls src ms entry f0 fs htag hres hmeta hfind hfld
  have hp : ∀ m : DbEntry,
      entryPred src { name := m.name, modelClass := m.modelClass,
                      defaults := dictUpdate entry.defaults (f0 :: fs) } = entryPred src m := by
    intro m
    cases src <;> rfl
  have hdef : defaultsOf (some ms) src = entry.defaults := by
    simp [defaultsOf, hfind]
  simp only [stepAction, htag,
    show ((some "dbInput" : Option String) == some "syncInput") = false from rfl,
    Bool.false_eq_true, if_false,
    show ((some "dbInput" : Option String) == some "dbInput") = true from rfl, if_true,
    hres, hfld]
  refine ⟨_, rfl, ?_, ?_⟩
  · simp [hmeta, hdef]
  · simp only [hmeta, hdef, Option.map_some', Option.getD_some]
    rw [findFirst_updateFirst (entryPred src)
      (fun m => { m with defaults := dictUpdate entry.defaults (f0 :: fs) }) hp ms, hfind]
    rfl

/-- C9: a `dbInput` action with an empty fields payload whose record type
resolves performs neither an update nor a create on the record store and
raises no error — the step succeeds and the only change to the processing
state is the ghost dispatch log. -/
theorem c9_empty_fields_db_noop :
    ∀ (env : Env) (st : ProcState) (a : Action) (cls : String) (src : DefSrc),
      a.tag = some "dbInput" →
      a.payload.fields = [] →
      resolveDb st.comp a.payload = .ok (some cls, src) →
      stepAction env st a =
        .ok { st with ghost := { st.ghost with dispatched := st.ghost.dispatched ++ [a] } } := by
  intro env st a cls src htag hfld hres
  simp only [stepAction, htag]
  simp only [show ((some "dbInput" : Option String) == some "syncInput") = false from rfl,
    Bool.false_eq_true, if_false,
    show ((some "dbInput" : Option String) == some "dbInput") = true from rfl, if_true]
  rw [hres, hfld]

theorem c9_witness :
    actDbEmptyFields.tag = some "dbInput" ∧
    actDbEmptyFields.payload.fields = [] ∧
    resolveDb stDb.comp actDbEmptyFields.payload = .ok (some "Book", .byName "book") ∧
    stepAction sampleEnv stDb actDbEmptyFields =
      .ok { stDb with
              ghost := { stDb.ghost with
                          dispatched := stDb.ghost.dispatched ++ [actDbEmptyFields] } } :=
  ⟨rfl, rfl, rfl,
    c9_empty_fields_db_noop sampleEnv stDb actDbEmptyFields "Book" (.byName "book")
      rfl rfl rfl⟩

theorem c8_witness :
    ∃ st2, stepAction sampleEnv stDbField actDbModelField = .ok st2 ∧
      st2.comp.meta = some (updateFirst (entryPred (.byClass "Book"))
        (fun m => { m with defaults := dictUpdate [("title", .vstr "d")] [("title", .vstr "t2")] })
        [⟨"book", "Book", [("title", .vstr "d")]⟩]) ∧
      findFirst (entryPred (.byClass "Book")) (st2.comp.meta.getD []) =
        some { (⟨"book", "Book", [("title", .vstr "d")]⟩ : DbEntry) with
                defaults := dictUpdate [("title", .vstr "d")] [("title", .vstr "t2")] } :=
  c8_db_defaults_mutated_in_registry sampleEnv stDbField actDbModelField "Book"
    (.byClass "Book") [⟨"book", "Book", [("title", .vstr "d")]⟩]
    ⟨"book", "Book", [("title", .vstr "d")]⟩ ("title", .vstr "t2") [] rfl rfl rfl rfl rfl

theorem stepAction_preserves_reset (env : Env) (hc : env.createCached.errors = [])
    (st st2 : ProcState) (a : Action)
    (h : stepAction env st a = .ok st2)
    (hr : st.isReset = true) (he : st.comp.errors = [])
    (hg : st.ghost.validateCalled = false) :
    st2.isReset = true ∧ st2.comp.errors = [] ∧ st2.ghost.validateCalled = false := by
  simp only [stepAction] at h
  repeat' (split at h)
  all_goals (first | (simp_all; done) | (injection h with h2; subst h2; simp_all))

theorem stepAction_ghost_validate (env : Env) (st st2 : ProcState) (a : Action)
    (h : stepAction env st a = .ok st2) :
    st2.ghost.validateCalled = st.ghost.validateCalled := by
  simp only [stepAction] at h
  repeat' (split at h)
  all_goals (first | (simp_all; done) | (injection h with h2; subst h2; simp_all) |
    (injection h with h2; subst h2; rfl))

theorem processActions_preserves_reset (env : Env) (hc : env.createCached.errors = []) :
    ∀ (acts : List Action) (st st2 : ProcState),
      processActions env st acts = .ok st2 →
      st.isReset = true → st.comp.errors = [] → st.ghost.validateCalled = false →
      st2.isReset = true ∧ st2.comp.errors = [] ∧ st2.ghost.validateCalled = false := by
  intro acts
  induction acts with
  | nil =>
    intro st st2 h hr he hg
    simp only [processActions] at h
    cases h
    exact ⟨hr, he, hg⟩
  | cons a rest ih =>
    intro st st2 h hr he hg
    simp only [processActions] at h
    cases hs : stepAction env st a with
    | error er => rw [hs] at h; cases h
    | ok stm =>
      rw [hs] at h
      obtain ⟨h1, h2, h3⟩ := stepAction_preserves_reset env hc st stm a hs hr he hg
      exact ih stm st2 h h1 h2 h3

theorem processActions_ghost_validate (env : Env) :
    ∀ (acts : List Action) (st st2 : ProcState),
      processActions env st acts = .ok st2 →
      st2.ghost.validateCalled = st.ghost.validateCalled := by
  intro acts
  induction acts with
  | nil =>
    intro st st2 h
    simp only [processActions] at h
    cases h
    rfl
  | cons a rest ih =>
    intro st st2 h
    simp only [processActions] at h
    cases hs : stepAction env st a with
    | error er => rw [hs] at h; cases h
    | ok stm =>
      rw [hs] at h
      rw [ih stm st2 h, stepAction_ghost_validate env st stm a hs]

theorem processInit_ghost (env : Env) (db : DbState) (req : Req) (st0 : ProcState)
    (h : processInit env db req = .ok st0) : st0.ghost = emptyGhost := by
  unfold processInit at h
  split at h
  · cases h
  · cases h
    rfl

theorem process_finalize_reset (env : Env) (req : Req) (st : ProcState)
    (h : st.isReset = true) :
    process_finalize env req st =
      ({ id := req.id
         dom := env.render st.comp
         data := Value.dict (env.serialize st.comp)
         errors := st.comp.errors
         ret := st.ret.map RV.retData }, st.db, st.ghost) := by
  simp [process_finalize, h]

theorem stepAction_reset_establishes (env : Env) (st : ProcState) (a : Action)
    (margs : List Value)
    (htag : a.tag = some "callMethod")
    (hcall : a.payload.call = some (.method "$reset" margs)) :
    stepAction env st a =
      .ok { st with
              comp := { env.createFresh with errors := [] }
              isReset := true
              ret := some ⟨"$reset", margs, .vnone⟩
              ghost := { st.ghost with
                          dispatched := st.ghost.dispatched ++ [a]
                          retLog := st.ghost.retLog ++ [⟨"$reset", margs, .vnone⟩] } } := by
  simp [stepAction, htag, hcall]

/-- C3: a request whose action queue contains a `$reset` call returns an
envelope with an empty validation-error map and skips the PostProcessing
validation step entirely, whatever other actions the queue holds.  The
hypothesis that cached instances carry empty errors reflects the spec's
contract that validation errors are produced only by `validate` (spec 7),
which a freshly fetched instance has not run. -/
theorem c3_reset_clears_errors_and_skips_validation :
    ∀ (env : Env) (db : DbState) (req : Req) (pre post : List Action) (a : Action)
      (margs : List Value) (e : Envelope) (db2 : DbState) (g : Ghost),
      env.createCached.errors = [] →
      a.tag = some "callMethod" →
      a.payload.call = some (.method "$reset" margs) →
      req.actionQueue = pre ++ a :: post →
      process_component_request env db req = .ok (e, db2, g) →
      e.errors = [] ∧ g.validateCalled = false := by
  intro env db req pre post a margs e db2 g hc htag hcall hq hproc
  unfold process_component_request at hproc
  cases hinit : processInit env db req with
  | error er =>
    simp only [hinit] at hproc
    exact Except.noConfusion hproc
  | ok st0 =>
    simp only [hinit, hq, processActions_append env pre (a :: post) st0] at hproc
    cases hpre : processActions env st0 pre with
    | error er =>
      simp only [hpre] at hproc
      exact Except.noConfusion hproc
    | ok stMid =>
      simp only [hpre] at hproc
      have hmidg : stMid.ghost.validateCalled = false := by
        rw [processActions_ghost_validate env pre st0 stMid hpre,
          processInit_ghost env db req st0 hinit]
        rfl
      simp only [processActions, stepAction_reset_establishes env stMid a margs htag hcall]
        at hproc
      cases hpost : processActions env
          { stMid with
              comp := { env.createFresh with errors := [] }
              isReset := true
              ret := some ⟨"$reset", margs, .vnone⟩
              ghost := { stMid.ghost with
                          dispatched := stMid.ghost.dispatched ++ [a]
                          retLog := stMid.ghost.retLog ++ [⟨"$reset", margs, .vnone⟩] } }
          post with
      | error er =>
        simp only [hpost] at hproc
        exact Except.noConfusion hproc
      | ok stFin =>
        simp only [hpost] at hproc
        obtain ⟨hfr, hfe, hfg⟩ :=
          processActions_preserves_reset env hc post _ stFin hpost rfl rfl (by simpa using hmidg)
        rw [process_finalize_reset env req stFin hfr] at hproc
        simp only [Except.ok.injEq, Prod.mk.injEq] at hproc
        obtain ⟨he2, _, hg2⟩ := hproc
        subst he2
        subst hg2
        exact ⟨hfe, hfg⟩

theorem c3_witness :
    envReset.errors = [] ∧ ghostReset.validateCalled = false :=
  c3_reset_clears_errors_and_skips_validation sampleEnv dbEmpty reqReset [] [] actReset []
    envReset dbEmpty ghostReset rfl rfl rfl rfl (by rfl)

theorem assocLookup_assocSet_self (l : List (String × Value)) (k : String) (v : Value) :
    assocLookup (assocSet l k v) k = some v := by
  induction l with
  | nil => simp [assocSet, assocLookup]
  | cons hd tl ih =>
    obtain ⟨k2, v2⟩ := hd
    by_cases hk : (k2 == k) = true
    · simp [assocSet, assocLookup, hk]
    · simp [assocSet, assocLookup, hk, ih]

theorem assocLookup_assocSet_isSome (l : List (String × Value)) (k : String) (v : Value)
    (q : String) :
    (assocLookup (assocSet l k v) q).isSome = ((assocLookup l q).isSome || (k == q)) := by
  induction l with
  | nil =>
    by_cases hq : (k == q) = true
    · simp [assocSet, assocLookup, hq]
    · simp [assocSet, assocLookup, hq]
  | cons hd tl ih =>
    obtain ⟨k2, v2⟩ := hd
    by_cases h2 : (k2 == k) = true
    · have e : k2 = k := by simpa using h2
      subst e
      by_cases hq : (k2 == q) = true
      · simp [assocSet, assocLookup, hq]
      · simp [assocSet, assocLookup, hq]
    · by_cases hq : (k2 == q) = true
      · simp [assocSet, assocLookup, h2, hq]
      · simp [assocSet, assocLookup, h2, hq, ih]

theorem isDictV_assocSetAttr (node : Value) (k : String) (v : Value) :
    isDictV (assocSetAttr node k v) = isDictV node := by
  cases node <;> rfl

theorem isDictV_dictWrite (node : Value) (k : String) (v : Value) :
    isDictV (dictWrite node k v) = isDictV node := by
  cases node <;> rfl

theorem hasattrV_assocSetAttr (node : Value) (k : String) (v : Value)
    (h : hasattrV node k = true) (q : String) :
    hasattrV (assocSetAttr node k v) q = hasattrV node q := by
  cases node with
  | obj fs =>
    simp only [assocSetAttr, hasattrV, attrLookup]
    rw [assocLookup_assocSet_isSome]
    by_cases hq : (k == q) = true
    · have e : k = q := by simpa using hq
      subst e
      simp only [hasattrV, attrLookup] at h
      simp [h]
    · simp [hq]
  | vnone => rfl
  | vbool b => rfl
  | vint n => rfl
  | vstr s => rfl
  | dict l => rfl

theorem hasattrV_dictWrite (node : Value) (k : String) (v : Value) (q : String) :
    hasattrV (dictWrite node k v) q = hasattrV node q := by
  cases node <;> rfl

theorem hasattrV_assocSetAttr_self (node : Value) (k : String) (v : Value)
    (h : hasattrV node k = true) :
    hasattrV (assocSetAttr node k v) k = true := by
  cases node with
  | obj fs =>
    simp [assocSetAttr, hasattrV, attrLookup, assocLookup_assocSet_self]
  | vnone => exact h
  | vbool b => exact h
  | vint n => exact h
  | vstr s => exact h
  | dict l => exact h

theorem getattrV_assocSetAttr_self (node : Value) (k : String) (v : Value)
    (h : hasattrV node k = true) :
    getattrV (assocSetAttr node k v) k = v := by
  cases node with
  | obj fs =>
    simp [assocSetAttr, getattrV, attrLookup, assocLookup_assocSet_self]
  | vnone => simp [hasattrV, attrLookup] at h
  | vbool b => simp [hasattrV, attrLookup] at h
  | vint n => simp [hasattrV, attrLookup] at h
  | vstr s => simp [hasattrV, attrLookup] at h
  | dict l => simp [hasattrV, attrLookup] at h

theorem dictLookup_dictWrite_self (node : Value) (k : String) (v : Value)
    (h : isDictV node = true) :
    dictLookup (dictWrite node k v) k = some v := by
  cases node with
  | dict l => simp [dictWrite, dictLookup, assocLookup_assocSet_self]
  | vnone => simp [isDictV] at h
  | vbool b => simp [isDictV] at h
  | vint n => simp [isDictV] at h
  | vstr s => simp [isDictV] at h
  | obj fs => simp [isDictV] at h

theorem setLoop_shape :
    ∀ (parts : List String) (node sh : Value) (live : Bool) (pv : Value)
      (n2 sh2 : Value),
      setLoop node sh live pv parts = .ok (n2, sh2) →
      isDictV n2 = isDictV node ∧ ∀ q, hasattrV n2 q = hasattrV node q := by
  intro parts
  induction parts with
  | nil =>
    intro node sh live pv n2 sh2 h
    simp only [setLoop, Except.ok.injEq, Prod.mk.injEq] at h
    obtain ⟨h1, _⟩ := h
    subst h1
    exact ⟨rfl, fun q => rfl⟩
  | cons p rest ih =>
    intro node sh live pv n2 sh2 h
    cases rest with
    | nil =>
      by_cases h1 : hasattrV node p = true
      · simp only [setLoop, h1, if_true] at h
        cases hw : shadowWrite sh live p pv with
        | error e => rw [hw] at h; exact Except.noConfusion h
        | ok sh3 =>
          rw [hw] at h
          simp only [Except.ok.injEq, Prod.mk.injEq] at h
          obtain ⟨h2, _⟩ := h
          subst h2
          exact ⟨isDictV_assocSetAttr node p pv,
            fun q => hasattrV_assocSetAttr node p pv h1 q⟩
      · by_cases h2 : isDictV node = true
        · simp only [setLoop, h1, h2, Bool.false_eq_true, if_false, if_true] at h
          cases hw : shadowWrite sh live p pv with
          | error e => rw [hw] at h; exact Except.noConfusion h
          | ok sh3 =>
            rw [hw] at h
            simp only [Except.ok.injEq, Prod.mk.injEq] at h
            obtain ⟨h3, _⟩ := h
            subst h3
            exact ⟨isDictV_dictWrite node p pv, fun q => hasattrV_dictWrite node p pv q⟩
        · simp only [setLoop, h1, h2, Bool.false_eq_true, if_false, Except.ok.injEq,
            Prod.mk.injEq] at h
          obtain ⟨h3, _⟩ := h
          subst h3
          exact ⟨rfl, fun q => rfl⟩
    | cons q2 rs =>
      by_cases h1 : hasattrV node p = true
      · simp only [setLoop, h1, if_true] at h
        cases hs : shadowStep sh live p with
        | error e => rw [hs] at h; exact Except.noConfusion h
        | ok spair =>
          obtain ⟨subSh, subLive⟩ := spair
          simp only [hs] at h
          cases hrec : setLoop (getattrV node p) subSh subLive pv (q2 :: rs) with
          | error e =>
            simp only [hrec] at h
            exact Except.noConfusion h
          | ok cpair =>
            obtain ⟨child2, subSh3⟩ := cpair
            simp only [hrec, Except.ok.injEq, Prod.mk.injEq] at h
            obtain ⟨h2, _⟩ := h
            subst h2
            exact ⟨isDictV_assocSetAttr node p child2,
              fun q => hasattrV_assocSetAttr node p child2 h1 q⟩
      · by_cases h2 : isDictV node = true
        · simp only [setLoop, h1, h2, Bool.false_eq_true, if_false, if_true] at h
          cases hl : dictLookup node p with
          | none => rw [hl] at h; exact Except.noConfusion h
          | some child =>
            rw [hl] at h
            cases hs : shadowStep sh live p with
            | error e => rw [hs] at h; exact Except.noConfusion h
            | ok spair =>
              obtain ⟨subSh, subLive⟩ := spair
              simp only [hs] at h
              cases hrec : setLoop child subSh subLive pv (q2 :: rs) with
              | error e =>
                simp only [hrec] at h
                exact Except.noConfusion h
              | ok cpair =>
                obtain ⟨child2, subSh3⟩ := cpair
                simp only [hrec, Except.ok.injEq, Prod.mk.injEq] at h
                obtain ⟨h3, _⟩ := h
                subst h3
                exact ⟨isDictV_dictWrite node p child2,
                  fun q => hasattrV_dictWrite node p child2 q⟩
        · simp only [setLoop, h1, h2, Bool.false_eq_true, if_false] at h
          exact ih node sh live pv n2 sh2 h

theorem setLoop_roundtrip :
    ∀ (parts : List String) (node sh : Value) (live : Bool) (pv : Value),
      (live = false ∨ sh = Value.dict []) →
      pathResolves node parts = true →
      ∃ n2 sh2, setLoop node sh live pv parts = .ok (n2, sh2) ∧
        getLoop n2 parts = .ok (some pv) := by
  intro parts
  induction parts with
  | nil =>
    intro node sh live pv hs hp
    simp [pathResolves] at hp
  | cons p rest ih =>
    intro node sh live pv hs hp
    have hstep : shadowStep sh live p = .ok (Value.dict [], false) := by
      rcases hs with hl | hd
      · simp [shadowStep, hl]
      · subst hd
        cases live <;> simp [shadowStep, assocLookup]
    have hwrite : ∃ shw, shadowWrite sh live p pv = .ok shw := by
      rcases hs with hl | hd
      · exact ⟨sh, by simp [shadowWrite, hl]⟩
      · subst hd
        cases live
        · exact ⟨.dict [], by simp [shadowWrite]⟩
        · exact ⟨.dict [(p, pv)], by simp [shadowWrite, dictWrite, assocSet]⟩
    cases rest with
    | nil =>
      simp only [pathResolves] at hp
      by_cases h1 : hasattrV node p = true
      · obtain ⟨shw, hw⟩ := hwrite
        refine ⟨assocSetAttr node p pv, shw, ?_, ?_⟩
        · simp [setLoop, h1, hw]
        · simp [getLoop, hasattrV_assocSetAttr_self node p pv h1,
            getattrV_assocSetAttr_self node p pv h1]
      · have h2 : isDictV node = true := by
          rcases Bool.or_eq_true_iff.mp hp with hcase | hcase
          · exact absurd hcase h1
          · exact hcase
        obtain ⟨shw, hw⟩ := hwrite
        refine ⟨dictWrite node p pv, shw, ?_, ?_⟩
        · simp [setLoop, h1, h2, hw]
        · have h1w : hasattrV (dictWrite node p pv) p = false := by
            rw [hasattrV_dictWrite]
            simpa using h1
          have h2w : isDictV (dictWrite node p pv) = true := by
            rw [isDictV_dictWrite]
            exact h2
          simp [getLoop, h1w, h2w, dictLookup_dictWrite_self node p pv h2]
    | cons q rs =>
      by_cases h1 : hasattrV node p = true
      · have hpr : pathResolves (getattrV node p) (q :: rs) = true := by
          simpa [pathResolves, h1] using hp
        obtain ⟨n2c, sh2c, hset, hget⟩ :=
          ih (getattrV node p) (.dict []) false pv (Or.inl rfl) hpr
        refine ⟨assocSetAttr node p n2c, sh, ?_, ?_⟩
        · simp [setLoop, h1, hstep, hset]
        · simp [getLoop, hasattrV_assocSetAttr_self node p n2c h1,
            getattrV_assocSetAttr_self node p n2c h1, hget]
      · by_cases h2 : isDictV node = true
        · cases hl : dictLookup node p with
          | none =>
            rw [pathResolves.eq_def] at hp
            simp [h1, h2, hl] at hp
          | some child =>
            have hpr : pathResolves child (q :: rs) = true := by
              rw [pathResolves.eq_def] at hp
              simpa [h1, h2, hl] using hp
            obtain ⟨n2c, sh2c, hset, hget⟩ :=
              ih child (.dict []) false pv (Or.inl rfl) hpr
            refine ⟨dictWrite node p n2c, sh, ?_, ?_⟩
            · simp [setLoop, h1, h2, hl, hstep, hset]
            · have h1w : hasattrV (dictWrite node p n2c) p = false := by
                rw [hasattrV_dictWrite]
                simpa using h1
              have h2w : isDictV (dictWrite node p n2c) = true := by
                rw [isDictV_dictWrite]
                exact h2
              simp [getLoop, h1w, h2w, dictLookup_dictWrite_self node p n2c h2, hget]
        · have hpr : pathResolves node (q :: rs) = true := by
            simpa [pathResolves, h1, h2] using hp
          obtain ⟨n2c, sh2c, hset, hget⟩ := ih node sh live pv hs hpr
          refine ⟨n2c, sh2c, ?_, ?_⟩
          · simp [setLoop, h1, h2, hset]
          · obtain ⟨hdict, hattr⟩ := setLoop_shape (q :: rs) node sh live pv n2c sh2c hset
            have h1w : hasattrV n2c p = false := by
              rw [hattr p]
              simpa using h1
            have h2w : isDictV n2c = false := by
              rw [hdict]
              simpa using h2
            simp [getLoop, h1w, h2w, hget]

/-- C7 (amended): for every dot path that is valid for the shared traversal
and every *non-`None`* value `v`, setting the path to `v` and reading it
back returns `v`.  (The value `None` is excluded: the set operation's
assertion rejects it, see the counterexample theorem.) -/
theorem c7_amended_set_then_get_returns_value :
    ∀ (root : Value) (path : String) (v : Value),
      isNoneV v = false →
      pathResolves root (pySplitDot path) = true →
      ∃ root2 sh2,
        set_property_value root (some path) v (.dict []) = .ok (root2, sh2) ∧
        get_property_value root2 (some path) = .ok (some v) := by
  intro root path v hv hp
  obtain ⟨n2, sh2, hset, hget⟩ :=
    setLoop_roundtrip (pySplitDot path) root (.dict []) true v (Or.inr rfl) hp
  exact ⟨n2, sh2, by simp [set_property_value, hv, hset], by simp [get_property_value, hget]⟩

/-- C7 (counterexample): at the valid one-segment path `a` and the value
`None`, the set raises `AssertionError` (source line 84), so setting then
reading back does not return the value — the claim fails for `v = None`. -/
theorem c7_none_value_not_settable :
    pathResolves (.obj [("a", .vstr "x")]) (pySplitDot "a") = true ∧
    set_property_value (.obj [("a", .vstr "x")]) (some "a") .vnone (.dict []) =
      .error (.assertionError "Property value is required") := ⟨rfl, rfl⟩

/-- Witness for the amended C7 theorem at a concrete nested input. -/
theorem c7_amended_witness :
    isNoneV (.vstr "z") = false ∧
    pathResolves (.obj [("a", .obj [("b", .vstr "c")])]) (pySplitDot "a.b") = true ∧
    ∃ root2 sh2,
      set_property_value (.obj [("a", .obj [("b", .vstr "c")])]) (some "a.b") (.vstr "z")
          (.dict []) = .ok (root2, sh2) ∧
      get_property_value root2 (some "a.b") = .ok (some (.vstr "z")) :=
  ⟨rfl, rfl,
    c7_amended_set_then_get_returns_value (.obj [("a", .obj [("b", .vstr "c")])]) "a.b"
      (.vstr "z") rfl rfl⟩

theorem stepAction_ret_inv (env : Env) (st st2 : ProcState) (a : Action)
    (h : stepAction env st a = .ok st2) :
    (st.ret = st.ghost.retLog.getLast? → st2.ret = st2.ghost.retLog.getLast?) ∧
    st2.ghost.retLog.length =
      st.ghost.retLog.length + (if a.tag == some "callMethod" then 1 else 0) := by
  simp only [stepAction] at h
  repeat' (split at h)
  all_goals
    (first
      | (simp_all; done)
      | (injection h with h2; subst h2; simp_all [List.getLast?_concat]))

theorem processActions_ret_inv (env : Env) :
    ∀ (acts : List Action) (st st2 : ProcState),
      processActions env st acts = .ok st2 →
      st.ret = st.ghost.retLog.getLast? →
      st2.ret = st2.ghost.retLog.getLast? ∧
      st2.ghost.retLog.length = st.ghost.retLog.length +
        (acts.filter fun x => x.tag == some "callMethod").length := by
  intro acts
  induction acts with
  | nil =>
    intro st st2 h hi
    simp only [processActions] at h
    cases h
    exact ⟨hi, by simp⟩
  | cons a rest ih =>
    intro st st2 h hi
    simp only [processActions] at h
    cases hs : stepAction env st a with
    | error er => rw [hs] at h; exact Except.noConfusion h
    | ok stm =>
      rw [hs] at h
      obtain ⟨hinv, hlen⟩ := stepAction_ret_inv env st stm a hs
      obtain ⟨hinv2, hlen2⟩ := ih stm st2 h (hinv hi)
      refine ⟨hinv2, ?_⟩
      rw [hlen2, hlen]
      by_cases ht : (a.tag == some "callMethod") = true
      · simp [List.filter_cons, ht]
        omega
      · simp only [Bool.not_eq_true] at ht
        simp [List.filter_cons, ht]

/-- C10: within one request, the envelope's optional return value is the
serialisation of the `Return` produced by the *last* `callMethod` action
processed — each `callMethod` overwrites it and earlier results are
discarded — `syncInput`/`dbInput` actions leave it unchanged (the
`callMethod` count matches the return log exactly), and the `return` key is
absent from the envelope precisely when the queue contains no `callMethod`
action. -/
theorem c10_return_reflects_last_call_method :
    ∀ (env : Env) (db : DbState) (req : Req) (e : Envelope) (db2 : DbState) (g : Ghost),
      process_component_request env db req = .ok (e, db2, g) →
      e.ret = g.retLog.getLast?.map RV.retData ∧
      g.retLog.length = (req.actionQueue.filter fun x => x.tag == some "callMethod").length ∧
      (e.ret = none ↔ (req.actionQueue.filter fun x => x.tag == some "callMethod") = []) := by
  intro env db req e db2 g hproc
  unfold process_component_request at hproc
  cases hinit : processInit env db req with
  | error er =>
    simp only [hinit] at hproc
    exact Except.noConfusion hproc
  | ok st0 =>
    simp only [hinit] at hproc
    cases hacts : processActions env st0 req.actionQueue with
    | error er =>
      simp only [hacts] at hproc
      exact Except.noConfusion hproc
    | ok stF =>
      simp only [hacts] at hproc
      have h0 : st0.ret = none ∧ st0.ghost = emptyGhost := by
        unfold processInit at hinit
        split at hinit
        · exact Except.noConfusion hinit
        · cases hinit
          exact ⟨rfl, rfl⟩
      obtain ⟨hinv, hlen⟩ := processActions_ret_inv env req.actionQueue st0 stF hacts
        (by rw [h0.1, h0.2]; rfl)
      have hfin : e.ret = stF.ret.map RV.retData ∧ g.retLog = stF.ghost.retLog := by
        unfold process_finalize at hproc
        split at hproc
        · simp only [Except.ok.injEq, Prod.mk.injEq] at hproc
          obtain ⟨he, _, hg⟩ := hproc
          subst he
          subst hg
          exact ⟨rfl, rfl⟩
        · simp only [Except.ok.injEq, Prod.mk.injEq] at hproc
          obtain ⟨he, _, hg⟩ := hproc
          subst he
          subst hg
          exact ⟨rfl, rfl⟩
      have hcount : stF.ghost.retLog.length =
          (req.actionQueue.filter fun x => x.tag == some "callMethod").length := by
        rw [hlen, h0.2]
        simp [emptyGhost]
      refine ⟨?_, ?_, ?_⟩
      · rw [hfin.1, hinv, hfin.2]
      · rw [hfin.2, hcount]
      · rw [hfin.1, hinv]
        constructor
        · intro hn
          have hnone : stF.ghost.retLog.getLast? = none := by
            cases hx : stF.ghost.retLog.getLast? with
            | none => rfl
            | some r => rw [hx] at hn; exact Option.noConfusion hn
          have hempty : stF.ghost.retLog = [] := by
            cases hy : stF.ghost.retLog with
            | nil => rfl
            | cons r t =>
              rw [hy] at hnone
              simp [List.getLast?] at hnone
          have hflen : (req.actionQueue.filter fun x => x.tag == some "callMethod").length = 0 := by
            rw [← hcount, hempty]
            rfl
          exact List.length_eq_zero.mp hflen
        · intro hf
          have : stF.ghost.retLog.length = 0 := by
            rw [hcount, hf]
            rfl
          have hempty : stF.ghost.retLog = [] := List.length_eq_zero.mp this
          rw [hempty]
          rfl

theorem c10_witness :
    envTwoCalls.ret = ghostTwoCalls.retLog.getLast?.map RV.retData ∧
    ghostTwoCalls.retLog.length =
      (reqTwoCalls.actionQueue.filter fun x => x.tag == some "callMethod").length ∧
    (envTwoCalls.ret = none ↔
      (reqTwoCalls.actionQueue.filter fun x => x.tag == some "callMethod") = []) :=
  c10_return_reflects_last_call_method sampleEnv dbEmpty reqTwoCalls envTwoCalls dbEmpty
    ghostTwoCalls (by rfl)

end Unicorn
